import Mathlib

/-!
Verification of the jar packaging tool (`src/bin/tools/jar.ts`).

The JavaScript strings are embedded as `List Char`; `Buffer.from` on a string is the
identity on that representation.  The file models, faithfully to the source:

* `trimIndent` — `s.replace(/(\n)\s+/g, "$1")`, as a left-to-right scanner that keeps
  every newline and drops the maximal whitespace run following it;
* the `transform` step of `pathToRecord` — `relative(rootPath, path).split(sep).join("/")`
  on POSIX (`sep = '/'`), with Node's `path.posix.relative` modelled on resolved absolute
  paths as a component-prefix computation;
* the `final` step of `pathToRecord` — pushing the `manifest` record, the `pomProps`
  record, and the end-of-stream signal (`push(null)`), in that order;
* the synthesized `manifest` and `pomProps` records, template literals reproduced with
  their exact source indentation;
* the standalone CLI block — `process.argv` indexing, `??` environment defaults, and the
  `main().catch(e => console.error(e))` outcome.
-/

set_option autoImplicit false

namespace Jar

/-- Whitespace class of the JavaScript regex escape used by `trimIndent`: the
ECMAScript WhiteSpace and LineTerminator characters — ASCII whitespace, NBSP, the
Unicode space separators (U+1680, U+2000–U+200A, U+202F, U+205F, U+3000), the line and
paragraph separators (U+2028, U+2029) and the byte-order mark U+FEFF. -/
def jsWS (c : Char) : Bool :=
  c == ' ' || c == '\t' || c == '\n' || c == '\r' || c == '\x0b' || c == '\x0c'
    || c == '\u00A0' || c == '\u1680'
    || (0x2000 ≤ c.toNat && c.toNat ≤ 0x200A)
    || c == '\u2028' || c == '\u2029' || c == '\u202F' || c == '\u205F'
    || c == '\u3000' || c == '\uFEFF'

/-- One-pass scanner underlying `trimIndent`.  The flag records whether the scanner is
inside the whitespace run that directly follows a kept newline (the greedy `\s+` of the
match): while set, whitespace characters are dropped; any kept newline sets it; any other
kept character clears it. -/
def trimIndentAux : Bool → List Char → List Char
  | _, [] => []
  | dropping, c :: rest =>
    if dropping && jsWS c then trimIndentAux true rest
    else if c = '\n' then c :: trimIndentAux true rest
    else c :: trimIndentAux false rest

/-- Model of `trimIndent` from jar.ts, i.e. of the global regex replacement that rewrites
a newline followed by a nonempty whitespace run to just the newline: every character is
kept, except that the maximal whitespace run directly following a kept newline is
dropped. -/
def trimIndent (s : List Char) : List Char :=
  trimIndentAux false s

/-- POSIX path separator (`path.sep` on the platform the tool targets). -/
def sep : Char := '/'

/-- Model of `String.prototype.split` at the separator: splits into pieces, keeping empty
pieces, so that joining with the separator is the inverse. -/
def splitOnSep : List Char → List (List Char)
  | [] => [[]]
  | c :: rest =>
    if c = sep then [] :: splitOnSep rest
    else
      match splitOnSep rest with
      | [] => [[c]]
      | p :: ps => (c :: p) :: ps

/-- Model of `Array.prototype.join("/")`. -/
def joinSep : List (List Char) → List Char
  | [] => []
  | [p] => p
  | p :: ps => p ++ sep :: joinSep ps

/-- Nonempty path components of a path: split at the separator, empty pieces dropped.
This is how Node's resolver views a resolved absolute path. -/
def pathComps (p : List Char) : List (List Char) :=
  (splitOnSep p).filter (fun c => !c.isEmpty)

/-- Length of the longest common prefix of two component lists. -/
def commonPrefixLen : List (List Char) → List (List Char) → Nat
  | a :: as, b :: bs => if a = b then commonPrefixLen as bs + 1 else 0
  | _, _ => 0

/-- Model of Node `path.posix.relative(fromPath, toPath)` restricted to resolved absolute
paths (no dot or dot-dot segments, no repeated or trailing separators) — the shape the
directory walk hands to the transform when `rootPath` is such a path: drop the longest
common component prefix, emit one dot-dot segment per remaining component of `fromPath`,
then the remaining components of `toPath`. -/
def relativePosix (fromPath toPath : List Char) : List Char :=
  let f := pathComps fromPath
  let t := pathComps toPath
  let k := commonPrefixLen f t
  joinSep (List.replicate (f.length - k) ['.', '.'] ++ t.drop k)

/-- The path normalization performed for each entry by the `transform` callback of
`pathToRecord`: `relative(rootPath, path).split(sep).join("/")`. -/
def normalize (rawPath rootPath : List Char) : List Char :=
  joinSep (splitOnSep (relativePosix rootPath rawPath))

/-- A record accepted by the zip encoder: either a filesystem-backed entry (the
`filename`/`path` object pushed by `transform`) or an in-memory entry (the `path`/`data`
objects `manifest` and `pomProps`). -/
inductive ZipSource
  | file (filename : List Char) (fsPath : List Char)
  | buffer (path : List Char) (data : List Char)
deriving DecidableEq, Repr

/-- Archive-internal name carried by a record. -/
def ZipSource.archivePath : ZipSource → List Char
  | .file filename _ => filename
  | .buffer path _ => path

/-- Data bytes of the `manifest` record: the template literal of jar.ts (17 spaces of
source indentation on each continuation line) passed through `trimIndent`. -/
def manifestData : List Char :=
  trimIndent ("Manifest-Version: 1.0\n                 Archiver-Version: Plexus Archiver\n                 Created-By: Keycloakify\n                 Built-By: unknown\n                 Build-Jdk: 19.0.0".toList)

/-- The `manifest` record of jar.ts. -/
def manifestEntry : ZipSource :=
  .buffer "META-INF/MANIFEST.MF".toList manifestData

/-- Archive path of the `pomProps` record, the interpolated template
`META-INF/maven/<groupId>/<artifactId>/pom.properties`. -/
def pomPath (groupId artifactId : List Char) : List Char :=
  "META-INF/maven/".toList ++ groupId ++ "/".toList ++ artifactId ++ "/pom.properties".toList

/-- Data bytes of the `pomProps` record: the interpolated template literal of jar.ts
(17 spaces of source indentation on each continuation line; `dateStr` stands for the
string `new Date()` renders to at invocation time) passed through `trimIndent`. -/
def pomPropsData (groupId artifactId version dateStr : List Char) : List Char :=
  trimIndent ("# Generated by keycloakify\n                 # ".toList ++ dateStr
    ++ "\n                 artifactId=".toList ++ artifactId
    ++ "\n                 groupId=".toList ++ groupId
    ++ "\n                 version=".toList ++ version)

/-- The `pomProps` record of jar.ts. -/
def pomPropsEntry (groupId artifactId version dateStr : List Char) : ZipSource :=
  .buffer (pomPath groupId artifactId) (pomPropsData groupId artifactId version dateStr)

/-- The two synthesized records, in the order `final` pushes them. -/
def synthesizedEntries (groupId artifactId version dateStr : List Char) : List ZipSource :=
  [manifestEntry, pomPropsEntry groupId artifactId version dateStr]

/-- One emission of the `pathToRecord` transform stream: a pushed record, or the
end-of-sequence signal (`push(null)`). -/
inductive AdapterEvent
  | record (r : ZipSource)
  | endOfSequence
deriving DecidableEq, Repr

/-- The complete emission sequence of one `pathToRecord` run over the finite input
`paths`: `transform` pushes exactly one `filename`/`path` record per input, in input
order, and `final` then pushes `manifest`, `pomProps`, and `null`. -/
def runAdapter (rootPath groupId artifactId version dateStr : List Char)
    (paths : List (List Char)) : List AdapterEvent :=
  paths.map (fun p => AdapterEvent.record (ZipSource.file (normalize p rootPath) p))
    ++ [AdapterEvent.record manifestEntry,
        AdapterEvent.record (pomPropsEntry groupId artifactId version dateStr),
        AdapterEvent.endOfSequence]

/-- Observable outcome of the standalone invocation: what was written to the error log,
and the process exit code. -/
structure CliOutcome where
  errorReports : List (List Char)
  exitCode : Nat
deriving DecidableEq, Repr

/-- Model of the standalone entry point `main().catch(e => console.error(e))`: a rejected
promise from `jar` is caught and written to the error log.  The source contains no
`process.exit` call and no `process.exitCode` assignment, and the rejection is handled,
so the Node process terminates with its default exit code 0 in both branches. -/
def runStandalone (jarResult : Except (List Char) Unit) : CliOutcome :=
  match jarResult with
  | Except.ok _ => { errorReports := [], exitCode := 0 }
  | Except.error e => { errorReports := [e], exitCode := 0 }

/-- Environment parameters read by the standalone block. -/
structure Env where
  ARTIFACT_ID : Option (List Char)
  GROUP_ID : Option (List Char)
  VERSION : Option (List Char)
deriving DecidableEq, Repr

/-- Arguments assembled by `main` for the `jar` call.  `process.argv[2]` and
`process.argv[3]` are plain array reads that yield `undefined` past the end of the
argument vector, hence `Option`. -/
structure JarArgs where
  rootPath : Option (List Char)
  targetPath : Option (List Char)
  artifactId : List Char
  groupId : List Char
  version : List Char
deriving DecidableEq, Repr

/-- Argument assembly in `main`: positional `argv[2]`/`argv[3]` and the three
`??`-defaulted environment parameters. -/
def mainJarArgs (argv : List (List Char)) (env : Env) : JarArgs :=
  { rootPath := argv[2]?
    targetPath := argv[3]?
    artifactId := env.ARTIFACT_ID.getD "artifact".toList
    groupId := env.GROUP_ID.getD "group".toList
    version := env.VERSION.getD "1.0.0".toList }

/-- Does `s` occur as a contiguous segment (a verbatim substring) of `l`? -/
def containsSeg (s : List Char) : List Char → Bool
  | [] => s.isEmpty
  | c :: rest => s.isPrefixOf (c :: rest) || containsSeg s rest

/-- Check that a string contains no newline immediately followed by a whitespace
character, i.e. that the pattern replaced by `trimIndent` cannot match inside it. -/
def noNlWs : List Char → Bool
  | c :: d :: rest => !(c == '\n' && jsWS d) && noNlWs (d :: rest)
  | _ => true

theorem jsWS_nl : jsWS '\n' = true := rfl

theorem trimIndentAux_true_eq (l : List Char) :
    trimIndentAux true l = trimIndentAux false (l.dropWhile jsWS) := by
  induction l with
  | nil => rfl
  | cons c rest ih =>
    by_cases hw : jsWS c
    · simp [trimIndentAux, hw, List.dropWhile_cons, ih]
    · have hc : c ≠ '\n' := by
        intro h
        rw [h, jsWS_nl] at hw
        exact hw rfl
      simp [trimIndentAux, hw, hc, List.dropWhile_cons]

theorem trimIndent_nil : trimIndent [] = [] := rfl

theorem trimIndent_cons_of_ne (c : Char) (l : List Char) (h : c ≠ '\n') :
    trimIndent (c :: l) = c :: trimIndent l := by
  simp [trimIndent, trimIndentAux, h]

theorem trimIndent_cons_nl (l : List Char) :
    trimIndent ('\n' :: l) = '\n' :: trimIndent (l.dropWhile jsWS) := by
  simp [trimIndent, trimIndentAux, trimIndentAux_true_eq]

theorem not_nl_of_not_ws {c : Char} (hc : jsWS c = false) : c ≠ '\n' := by
  intro h
  rw [h, jsWS_nl] at hc
  exact Bool.true_eq_false.mp hc

/-- Splitting `trimIndent` at a non-whitespace character: the scanner cannot be inside a
whitespace run at such a character, so the tail is processed independently. -/
theorem trimIndent_append_break_aux :
    ∀ (n : Nat) (x : List Char), x.length ≤ n → ∀ (c : Char) (b : List Char),
      jsWS c = false → trimIndent (x ++ c :: b) = trimIndent (x ++ [c]) ++ trimIndent b := by
  intro n
  induction n with
  | zero =>
    intro x hx c b hc
    have hx0 : x = [] := List.eq_nil_of_length_eq_zero (Nat.le_zero.mp hx)
    subst hx0
    simp [trimIndent_cons_of_ne c _ (not_nl_of_not_ws hc), trimIndent_nil]
  | succ n ih =>
    intro x hx c b hc
    match x with
    | [] =>
      simp [trimIndent_cons_of_ne c _ (not_nl_of_not_ws hc), trimIndent_nil]
    | d :: x' =>
      have hx' : x'.length ≤ n := Nat.le_of_succ_le_succ hx
      by_cases hd : d = '\n'
      · subst hd
        rw [List.cons_append, trimIndent_cons_nl, List.cons_append, trimIndent_cons_nl,
          List.dropWhile_append, List.dropWhile_append]
        by_cases h0 : x'.dropWhile jsWS = []
        · simp only [h0, List.isEmpty_nil, if_true, List.dropWhile_cons, hc, if_neg,
            Bool.false_eq_true, not_false_eq_true, List.dropWhile_nil]
          simp [trimIndent_cons_of_ne c _ (not_nl_of_not_ws hc), trimIndent_nil]
        · have h0' : (x'.dropWhile jsWS).isEmpty = false := by
            simpa [List.isEmpty_iff] using h0
          simp only [h0', Bool.false_eq_true, if_false]
          have hlen : (x'.dropWhile jsWS).length ≤ n :=
            Nat.le_trans (List.dropWhile_sublist jsWS).length_le hx'
          rw [ih _ hlen c b hc]
          simp
      · rw [List.cons_append, trimIndent_cons_of_ne d _ hd, List.cons_append,
          trimIndent_cons_of_ne d _ hd, ih x' hx' c b hc, List.cons_append]

theorem trimIndent_append_break (x : List Char) (c : Char) (b : List Char)
    (hc : jsWS c = false) :
    trimIndent (x ++ c :: b) = trimIndent (x ++ [c]) ++ trimIndent b :=
  trimIndent_append_break_aux x.length x (Nat.le_refl _) c b hc

theorem noNlWs_tail {c : Char} {s : List Char} (h : noNlWs (c :: s) = true) :
    noNlWs s = true := by
  match s with
  | [] => rfl
  | d :: t =>
    have := (Bool.and_eq_true _ _).mp h
    exact this.2

/-- A string in which the `trimIndent` pattern cannot match survives as a prefix: the
scanner keeps all of it, and whatever it drops afterwards lies beyond it. -/
theorem trimIndent_append_of_noNlWs :
    ∀ s : List Char, noNlWs s = true → ∀ r : List Char,
      ∃ w : List Char, trimIndent (s ++ r) = s ++ w := by
  intro s
  induction s with
  | nil => exact fun _ r => ⟨trimIndent r, rfl⟩
  | cons c s' ih =>
    intro hs r
    have hs' : noNlWs s' = true := noNlWs_tail hs
    by_cases hc : c = '\n'
    · subst hc
      cases s' with
      | nil =>
        refine ⟨trimIndent (r.dropWhile jsWS), ?_⟩
        simp only [List.nil_append, List.cons_append]
        rw [trimIndent_cons_nl]
      | cons d t =>
        have hd : jsWS d = false := by
          simp only [noNlWs, Bool.and_eq_true] at hs
          simpa using hs.1
        obtain ⟨w, hw⟩ := ih hs' r
        refine ⟨w, ?_⟩
        simp only [List.cons_append]
        rw [trimIndent_cons_nl, List.dropWhile_cons]
        simp only [hd, Bool.false_eq_true, if_false]
        simp only [List.cons_append] at hw
        rw [hw]
    · obtain ⟨w, hw⟩ := ih hs' r
      refine ⟨w, ?_⟩
      simp only [List.cons_append]
      rw [trimIndent_cons_of_ne c _ hc, hw]

theorem containsSeg_nil_left (l : List Char) : containsSeg [] l = true := by
  match l with
  | [] => rfl
  | c :: rest => simp [containsSeg, List.isPrefixOf]

theorem isPrefixOf_append_self (s t : List Char) : s.isPrefixOf (s ++ t) = true := by
  rw [List.isPrefixOf_iff_prefix]
  exact List.prefix_append s t

theorem containsSeg_middle (u s w : List Char) : containsSeg s (u ++ s ++ w) = true := by
  induction u with
  | nil =>
    cases s with
    | nil => simpa using containsSeg_nil_left w
    | cons c s' =>
      have h := isPrefixOf_append_self (c :: s') w
      simp only [List.cons_append] at h
      simp only [List.nil_append, List.cons_append, containsSeg, List.append_eq, h,
        Bool.true_or]
  | cons d u' ih =>
    have h : (d :: u') ++ s ++ w = d :: (u' ++ s ++ w) := by simp
    rw [h]
    simp only [containsSeg, ih, Bool.or_true]

/-- Survival of an interpolated string through `trimIndent`: if it is preceded by a
non-whitespace character and the pattern cannot match inside it, it occurs verbatim in
the output. -/
theorem containsSeg_trimIndent_mid (x : List Char) (c : Char) (s b : List Char)
    (hc : jsWS c = false) (hs : noNlWs s = true) :
    containsSeg s (trimIndent (x ++ c :: (s ++ b))) = true := by
  rw [trimIndent_append_break x c (s ++ b) hc]
  obtain ⟨w, hw⟩ := trimIndent_append_of_noNlWs s hs b
  rw [hw, ← List.append_assoc]
  exact containsSeg_middle _ s w

/-- C2: for every finite input sequence, after the per-path records the adapter emits
exactly the manifest record, then the pom.properties record, then the end-of-sequence
signal, and nothing further. -/
theorem adapter_finalize_fixed_tail (rootPath groupId artifactId version dateStr : List Char)
    (paths : List (List Char)) :
    (runAdapter rootPath groupId artifactId version dateStr paths).drop paths.length =
      [AdapterEvent.record manifestEntry,
        AdapterEvent.record (pomPropsEntry groupId artifactId version dateStr),
        AdapterEvent.endOfSequence] := by
  unfold runAdapter
  exact List.drop_left' (by simp)

/-- C7: the adapter emits exactly one record per input path, in input order: the natural
portion of the output is precisely the input list mapped through record construction. -/
theorem adapter_one_record_per_path (rootPath groupId artifactId version dateStr : List Char)
    (paths : List (List Char)) :
    (runAdapter rootPath groupId artifactId version dateStr paths).take paths.length =
      paths.map (fun p => AdapterEvent.record (ZipSource.file (normalize p rootPath) p)) := by
  unfold runAdapter
  exact List.take_left' (by simp)

/-- C8: with zero natural entries the adapter's whole output is the two synthesized
records (manifest, then pom.properties) and the end-of-sequence signal. -/
theorem adapter_empty_source (rootPath groupId artifactId version dateStr : List Char) :
    runAdapter rootPath groupId artifactId version dateStr [] =
      [AdapterEvent.record manifestEntry,
        AdapterEvent.record (pomPropsEntry groupId artifactId version dateStr),
        AdapterEvent.endOfSequence] := rfl

/-- C3: both synthesized entries are a function of the build parameters group, artifact,
version and timestamp — equal parameters produce equal entries. -/
theorem synthesized_entries_function_of_params (g₁ a₁ v₁ t₁ g₂ a₂ v₂ t₂ : List Char)
    (hg : g₁ = g₂) (ha : a₁ = a₂) (hv : v₁ = v₂) (ht : t₁ = t₂) :
    synthesizedEntries g₁ a₁ v₁ t₁ = synthesizedEntries g₂ a₂ v₂ t₂ := by
  rw [hg, ha, hv, ht]

/-- C3 witness: the determinism statement at concrete build parameters. -/
theorem synthesized_entries_function_of_params_witness :
    synthesizedEntries "g".toList "a".toList "1.0.0".toList "Fri Oct 10 2025".toList =
      synthesizedEntries "g".toList "a".toList "1.0.0".toList "Fri Oct 10 2025".toList :=
  synthesized_entries_function_of_params _ _ _ _ _ _ _ _ rfl rfl rfl rfl

/-- C4 counterexample: when `jar` rejects, the standalone handler logs the error but the
process exit code is 0, not non-zero — the rejection is handled by `.catch` and the
source never sets an exit code. -/
theorem standalone_failure_exit_code_counterexample :
    (runStandalone
        (Except.error "Error: ENOENT: no such file or directory".toList)).exitCode = 0 :=
  rfl

/-- C4 amended: on any failure the standalone invocation surfaces the failure as an
error report (one `console.error` entry), but exits with code 0 because the rejection is
handled. -/
theorem standalone_failure_reported_exit_zero (e : List Char) :
    runStandalone (Except.error e) = { errorReports := [e], exitCode := 0 } := rfl

/-- C5 counterexample: the version string `1\n 0` (a newline followed by whitespace) does
not appear verbatim in the produced pom.properties text — `trimIndent` runs after
interpolation and deletes the whitespace after the newline. -/
theorem pom_verbatim_counterexample :
    containsSeg "1\n 0".toList
      (pomPropsData "group".toList "artifact".toList "1\n 0".toList
        "Fri Oct 10 2025 12:00:00 GMT+0000 (Coordinated Universal Time)".toList)
      = false := by decide

/-- C5 amended: each of groupId, artifactId and version appears verbatim in the
synthesized pom.properties text provided it contains no newline immediately followed by
a whitespace character (the pattern `trimIndent` rewrites). -/
theorem pom_params_verbatim (groupId artifactId version dateStr : List Char)
    (hg : noNlWs groupId = true) (ha : noNlWs artifactId = true)
    (hv : noNlWs version = true) :
    containsSeg groupId (pomPropsData groupId artifactId version dateStr) = true ∧
    containsSeg artifactId (pomPropsData groupId artifactId version dateStr) = true ∧
    containsSeg version (pomPropsData groupId artifactId version dateStr) = true := by
  refine ⟨?_, ?_, ?_⟩
  · unfold pomPropsData
    have harg : "# Generated by keycloakify\n                 # ".toList ++ dateStr
        ++ "\n                 artifactId=".toList ++ artifactId
        ++ "\n                 groupId=".toList ++ groupId
        ++ "\n                 version=".toList ++ version
        = ("# Generated by keycloakify\n                 # ".toList ++ dateStr
            ++ "\n                 artifactId=".toList ++ artifactId
            ++ "\n                 groupId".toList) ++ '=' ::
              (groupId ++ ("\n                 version=".toList ++ version)) := by
      have e : ("\n                 groupId=".toList : List Char)
          = "\n                 groupId".toList ++ ['='] := by decide
      rw [e]
      simp
    rw [harg]
    exact containsSeg_trimIndent_mid _ '=' groupId _ (by decide) hg
  · unfold pomPropsData
    have harg : "# Generated by keycloakify\n                 # ".toList ++ dateStr
        ++ "\n                 artifactId=".toList ++ artifactId
        ++ "\n                 groupId=".toList ++ groupId
        ++ "\n                 version=".toList ++ version
        = ("# Generated by keycloakify\n                 # ".toList ++ dateStr
            ++ "\n                 artifactId".toList) ++ '=' ::
              (artifactId ++ ("\n                 groupId=".toList ++ groupId
                ++ "\n                 version=".toList ++ version)) := by
      have e : ("\n                 artifactId=".toList : List Char)
          = "\n                 artifactId".toList ++ ['='] := by decide
      rw [e]
      simp
    rw [harg]
    exact containsSeg_trimIndent_mid _ '=' artifactId _ (by decide) ha
  · unfold pomPropsData
    have harg : "# Generated by keycloakify\n                 # ".toList ++ dateStr
        ++ "\n                 artifactId=".toList ++ artifactId
        ++ "\n                 groupId=".toList ++ groupId
        ++ "\n                 version=".toList ++ version
        = ("# Generated by keycloakify\n                 # ".toList ++ dateStr
            ++ "\n                 artifactId=".toList ++ artifactId
            ++ "\n                 groupId=".toList ++ groupId
            ++ "\n                 version".toList) ++ '=' :: (version ++ []) := by
      have e : ("\n                 version=".toList : List Char)
          = "\n                 version".toList ++ ['='] := by decide
      rw [e]
      simp
    rw [harg]
    exact containsSeg_trimIndent_mid _ '=' version [] (by decide) hv

/-- C5 witness: the amended statement at the concrete build parameters `group`,
`artifact`, `1.0.0` and a concrete date string. -/
theorem pom_params_verbatim_witness :
    containsSeg "group".toList
      (pomPropsData "group".toList "artifact".toList "1.0.0".toList
        "Fri Oct 10 2025".toList) = true ∧
    containsSeg "artifact".toList
      (pomPropsData "group".toList "artifact".toList "1.0.0".toList
        "Fri Oct 10 2025".toList) = true ∧
    containsSeg "1.0.0".toList
      (pomPropsData "group".toList "artifact".toList "1.0.0".toList
        "Fri Oct 10 2025".toList) = true :=
  pom_params_verbatim "group".toList "artifact".toList "1.0.0".toList
    "Fri Oct 10 2025".toList (by decide) (by decide) (by decide)

/-- C6: the two synthesized entries carry exactly the archive paths
`META-INF/MANIFEST.MF` and `META-INF/maven/<groupId>/<artifactId>/pom.properties`. -/
theorem synthesized_archive_paths (groupId artifactId version dateStr : List Char) :
    manifestEntry.archivePath = "META-INF/MANIFEST.MF".toList ∧
    (pomPropsEntry groupId artifactId version dateStr).archivePath =
      joinSep ["META-INF".toList, "maven".toList, groupId, artifactId,
        "pom.properties".toList] := by
  refine ⟨rfl, ?_⟩
  show pomPath groupId artifactId = _
  have e1 : ("META-INF/maven/".toList : List Char)
      = "META-INF".toList ++ '/' :: "maven".toList ++ ['/'] := by decide
  have e2 : ("/pom.properties".toList : List Char)
      = '/' :: "pom.properties".toList := by decide
  have e3 : ("/".toList : List Char) = ['/'] := by decide
  unfold pomPath
  rw [e1, e2, e3]
  simp [joinSep, sep]

/-- C9: standalone invocation takes the source directory from the first positional
argument (`process.argv[2]`) and the output file from the second (`process.argv[3]`),
and with all three environment parameters unset the artifact id, group id and version
default to `artifact`, `group` and `1.0.0`. -/
theorem standalone_args_and_defaults (nodeExe scriptPath srcDir outFile : List Char)
    (rest : List (List Char)) :
    mainJarArgs (nodeExe :: scriptPath :: srcDir :: outFile :: rest)
        { ARTIFACT_ID := none, GROUP_ID := none, VERSION := none } =
      { rootPath := some srcDir, targetPath := some outFile,
        artifactId := "artifact".toList, groupId := "group".toList,
        version := "1.0.0".toList } := by
  simp [mainJarArgs]

/-- C10: the pom.properties bytes are not determined by rootPath, groupId, artifactId
and version alone — two invocations with identical parameters but different wall-clock
date strings produce different bytes. -/
theorem pom_data_depends_on_clock :
    ∃ dateStr₁ dateStr₂ : List Char, dateStr₁ ≠ dateStr₂ ∧
      pomPropsData "group".toList "artifact".toList "1.0.0".toList dateStr₁ ≠
        pomPropsData "group".toList "artifact".toList "1.0.0".toList dateStr₂ := by
  refine ⟨"Fri Oct 10 2025 12:00:00 GMT+0000 (Coordinated Universal Time)".toList,
    "Sat Oct 11 2025 12:00:00 GMT+0000 (Coordinated Universal Time)".toList, ?_, ?_⟩
  · decide
  · decide

end Jar
